import Mathlib

/-!
Shallow embedding of the candidate-scoring / resume-extraction core of the
AI-powered recruitment repository (src/agents/filter_ai.py,
src/tools/resume_parser.py, src/agents/store_keeper.py, src/utils/helpers.py),
together with theorems settling the frozen claims about it.

Modelling conventions:
* Python floats are idealised as exact rationals (`Rat`); `round(x, 2)` is
  modelled as exact round-half-to-even at two decimals (`pyRound2`).
* Python's `re` module is embedded by a small backtracking matcher (`reM`)
  over an explicit pattern AST (`RE`); each source regex is transcribed into
  that AST next to a comment quoting the original pattern.  Character classes
  `\d`, `\s`, `\w` are read as their ASCII meaning (all inputs of interest are
  ASCII).  The matcher carries fuel which only bounds recursion depth; the
  fuel supplied by the wrappers is far above the depth any of the embedded
  patterns can reach.
* Values read from JSON records are dynamically typed in Python; the only
  ill-typing that matters to the claims is a non-string entry in a candidate's
  `skills` list, on which `str.lower()` raises.  `SVal` models exactly that.
* `datetime.now().year` (used by `ResumeParser.extract_experience` for
  "present"/"current" date ranges) is passed in as an explicit argument.
-/

attribute [local semireducible] Rat.mul Rat.add Rat.sub Rat.inv Rat.ofScientific

deriving instance DecidableEq for Except

/-- Python's `needle in hay` substring test. -/
def pyIn (needle hay : String) : Bool :=
  hay.toList.tails.any (fun t => needle.toList.isPrefixOf t)

/-- Python `\s` (ASCII part): space, tab, newline, carriage return, vertical tab, form feed. -/
def pySpace (c : Char) : Bool :=
  c == ' ' || c == '\t' || c == '\n' || c == '\r' || c == '\x0b' || c == '\x0c'

/-- Python `\w` (ASCII part): letters, digits, underscore. -/
def isWordChar (c : Char) : Bool :=
  c.isAlphanum || c == '_'

/-- Python `str.lower` (ASCII; the library `String.toLower` is extensionally
the same but is defined by well-founded recursion, which the kernel cannot
evaluate, so we map over the character list instead). -/
def pyLower (s : String) : String := String.mk (s.toList.map Char.toLower)

/-- Python `str.split(sep)` for a one-character separator, on character lists:
keeps empty chunks, `[] → [[]]`, exactly as Python. -/
def splitOnChar (sep : Char) : List Char → List (List Char)
  | [] => [[]]
  | c :: rest =>
    let r := splitOnChar sep rest
    if c == sep then [] :: r
    else
      match r with
      | [] => [[c]]
      | h :: t => (c :: h) :: t

/-- Python `str.split(sep)` for a one-character separator. -/
def pySplitOn (s : String) (sep : Char) : List String :=
  (splitOnChar sep s.toList).map String.mk

/-- Python `str.strip()` (ASCII whitespace). -/
def pyStrip (s : String) : String :=
  String.mk (((s.toList.dropWhile pySpace).reverse.dropWhile pySpace).reverse)

/-- Python `sep.join(list)`. -/
def pyJoin (sep : String) : List String → String
  | [] => ""
  | [x] => x
  | x :: xs => x ++ sep ++ pyJoin sep xs

/-- Decimal representation of a `Nat` (kernel-evaluable `str(n)`). -/
def natToStr (n : Nat) : String :=
  String.mk (natToStrAux n n).reverse
where
  natToStrAux : Nat → Nat → List Char
  | _, 0 => ['0']
  | 0, _ => []
  | fuel + 1, m =>
    if m < 10 then [Char.ofNat (48 + m)]
    else Char.ofNat (48 + m % 10) :: natToStrAux fuel (m / 10)

/-- `int` applied to a string of ASCII digits (as produced by `(\d+)` captures). -/
def natOfDigits (s : String) : Nat :=
  s.toList.foldl (fun a c => a * 10 + (c.toNat - 48)) 0

/-- Pattern AST for the fragment of Python regex syntax used by the repository:
character classes, sequencing, alternation, greedy `?`/`*`, lazy `*?`,
capturing groups, word boundary `\b` and end anchor `$`. -/
inductive RE where
  | eps : RE
  | cls (p : Char → Bool) : RE
  | seq (a b : RE) : RE
  | alt (a b : RE) : RE
  | opt (a : RE) : RE
  | star (a : RE) : RE
  | lazyStar (a : RE) : RE
  | group (a : RE) : RE
  | bnd : RE
  | eos : RE

/-- Size of a pattern, used to compute a generous fuel bound. -/
def reSize : RE → Nat
  | .eps => 1
  | .cls _ => 1
  | .seq a b => reSize a + reSize b + 1
  | .alt a b => reSize a + reSize b + 1
  | .opt a => reSize a + 1
  | .star a => reSize a + 1
  | .lazyStar a => reSize a + 1
  | .group a => reSize a + 1
  | .bnd => 1
  | .eos => 1

/-- Backtracking matcher in continuation-passing style, mirroring Python `re`
semantics: ordered alternation, greedy `?`/`*` (try consuming first), lazy `*?`
(try the continuation first), leftmost match.  `pv` is the character just
before the current position (for `\b`), `caps` the captures collected so far.
Star bodies that consume nothing stop iterating, as in Python.  Capturing
groups record the consumed substring; the embedded patterns never nest
capturing groups, so group order is just left-to-right. -/
def reM (fuel : Nat) (r : RE) (pv : Option Char) (s : List Char)
    (caps : List (List Char))
    (k : Option Char → List Char → List (List Char) →
         Option (List (List Char) × List Char)) :
    Option (List (List Char) × List Char) :=
  match fuel with
  | 0 => none
  | fuel + 1 =>
    match r with
    | .eps => k pv s caps
    | .cls p =>
      match s with
      | [] => none
      | c :: rest => if p c then k (some c) rest caps else none
    | .seq a b =>
      reM fuel a pv s caps (fun pv2 s2 caps2 => reM fuel b pv2 s2 caps2 k)
    | .alt a b =>
      (reM fuel a pv s caps k).orElse (fun _ => reM fuel b pv s caps k)
    | .opt a =>
      (reM fuel a pv s caps k).orElse (fun _ => k pv s caps)
    | .star a =>
      (reM fuel a pv s caps (fun pv2 s2 caps2 =>
        if s2.length < s.length then reM fuel (.star a) pv2 s2 caps2 k
        else k pv2 s2 caps2)).orElse (fun _ => k pv s caps)
    | .lazyStar a =>
      (k pv s caps).orElse (fun _ =>
        reM fuel a pv s caps (fun pv2 s2 caps2 =>
          if s2.length < s.length then reM fuel (.lazyStar a) pv2 s2 caps2 k
          else none))
    | .group a =>
      reM fuel a pv s caps (fun pv2 s2 caps2 =>
        k pv2 s2 (caps2 ++ [s.take (s.length - s2.length)]))
    | .bnd =>
      let wl := match pv with | some c => isWordChar c | none => false
      let wr := match s with | c :: _ => isWordChar c | [] => false
      if wl != wr then k pv s caps else none
    | .eos =>
      match s with
      | [] => k pv s caps
      | _ => none

/-- Fuel that comfortably dominates the matcher's recursion depth. -/
def reFuel (r : RE) (s : List Char) : Nat :=
  (reSize r + 2) * (s.length + 2) * 2

/-- Try to match `r` at the start of `s` (the semantics of `re.match` at one
position, used repeatedly by the search wrappers). -/
def reMatchAt (r : RE) (pv : Option Char) (s : List Char) :
    Option (List (List Char) × List Char) :=
  reM (reFuel r s) r pv s [] (fun _ s2 caps => some (caps, s2))

/-- One match as Python `re` reports it: the list of captured groups and the
whole matched substring. -/
structure MRes where
  groups : List String
  whole : String
deriving DecidableEq, Repr

/-- Last character of a list, falling back to `dflt`. -/
def lastCharOf (l : List Char) (dflt : Option Char) : Option Char :=
  match l.getLast? with
  | some c => some c
  | none => dflt

/-- `re.findall`: scan left to right, take the leftmost match, continue after
it (advancing one character past empty matches, as Python does). -/
def reFindAllAux (r : RE) : Nat → Option Char → List Char → List MRes
  | 0, _, _ => []
  | Nat.succ n, pv, s =>
    match reMatchAt r pv s with
    | some (caps, rest) =>
      let consumed := s.length - rest.length
      let m : MRes := ⟨caps.map (fun l => String.mk l), String.mk (s.take consumed)⟩
      if consumed == 0 then
        match s with
        | [] => [m]
        | c :: tail => m :: reFindAllAux r n (some c) tail
      else
        m :: reFindAllAux r n (lastCharOf (s.take consumed) pv) rest
    | none =>
      match s with
      | [] => []
      | c :: tail => reFindAllAux r n (some c) tail

/-- `re.findall pattern s`. -/
def reFindAll (r : RE) (s : String) : List MRes :=
  reFindAllAux r (s.toList.length + 1) none s.toList

/-- `re.search`, reported like the head of `findall`. -/
def reFindFirst (r : RE) (s : String) : Option MRes :=
  (reFindAll r s).head?

/-- `re.match pattern s` viewed as a Boolean test (anchored at position 0). -/
def reTest (r : RE) (s : String) : Bool :=
  (reMatchAt r none s.toList).isSome

/-- Sequence a list of patterns. -/
def reSeqL (l : List RE) : RE := l.foldr RE.seq RE.eps

/-- Literal character. -/
def chr (c : Char) : RE := RE.cls (fun x => x == c)

/-- Case-sensitive literal string. -/
def lit (w : String) : RE := reSeqL (w.toList.map chr)

/-- Literal string under `re.IGNORECASE` (the source patterns are lowercase). -/
def litIC (w : String) : RE :=
  reSeqL (w.toList.map (fun c => RE.cls (fun x => x.toLower == c)))

/-- `r+` (greedy). -/
def rePlus (r : RE) : RE := .seq r (.star r)

/-- `\d`. -/
def dCls : RE := .cls Char.isDigit

/-- `\d+` (greedy). -/
def digits1 : RE := rePlus dCls

/-- `\s`. -/
def wsCls : RE := .cls pySpace

/-- `\s*`. -/
def wsStar : RE := .star wsCls

/-- `\s+`. -/
def wsPlus : RE := rePlus wsCls

/-- `.` (any character except newline). -/
def dotCls : RE := .cls (fun c => !(c == '\n'))

/-- `\d{n}`. -/
def dRep (n : Nat) : RE := reSeqL (List.replicate n dCls)

/-- `(\d+)`. -/
def grpDigits : RE := .group digits1

/-- `s?` (the optional plural marker in `years?` / `months?`). -/
def optS : RE := .opt (chr 's')

/-! ## FilterAI (src/agents/filter_ai.py)

The agent's scoring functions are deterministic and pure; the LLM handle the
class constructor creates is never used by them.  Candidate records are JSON
dicts; the fields the scoring code reads are `id`, `skills`, `experience`,
`education` (with `.get` defaults `[]` / `''`).  A well-formed record has
string skills; a non-string entry makes `skill.lower()` raise, which is the
per-candidate failure path `analyze_candidate` catches.  `SVal` models a
skills-list entry. -/

/-- A candidate `skills` entry: a string, or some non-string JSON value on
which `str.lower()` raises `AttributeError`. -/
inductive SVal where
  | s (v : String)
  | nonstr
deriving DecidableEq, Repr

/-- `skill.lower()` on one entry; raises on a non-string. -/
def lowerVal : SVal → Except String String
  | .s v => .ok (pyLower v)
  | .nonstr => .error "AttributeError: object has no attribute lower"

/-- `[skill.lower() for skill in skills]` — the first non-string raises. -/
def lowerVals : List SVal → Except String (List String)
  | [] => .ok []
  | v :: vs =>
    match lowerVal v with
    | .error e => .error e
    | .ok x =>
      match lowerVals vs with
      | .error e => .error e
      | .ok xs => .ok (x :: xs)

/-- Candidate record as `FilterAI` reads it. -/
structure DCand where
  id : String
  skills : List SVal
  experience : String
  education : String
deriving DecidableEq, Repr

/-- Job record as `FilterAI` reads it. -/
structure Job where
  id : String
  skills_required : List String
  experience_level : String
  requirements : List String
deriving DecidableEq, Repr

/-- `FilterAI._extract_years`: lowercase the text, `re.findall(r'(\d+)\s*years?', ...)`,
return `int` of the first capture, `0` when there is none (or the text is empty —
`findall` on `''` finds nothing, so one branch covers both). -/
def reYearsPat : RE := reSeqL [grpDigits, wsStar, lit "year", optS]

/-- `FilterAI._extract_years`. -/
def extract_years (text : String) : Nat :=
  match reFindFirst reYearsPat (pyLower text) with
  | some m => natOfDigits (m.groups.getD 0 "")
  | none => 0

/-- `FilterAI._calculate_skill_match`.  Returns 50 on an empty requirement
list before touching the candidate's skills; otherwise lowers both lists
(raising on a non-string candidate skill) and returns `matches / len * 100`. -/
def calculate_skill_match (candidate_skills : List SVal)
    (required_skills : List String) : Except String Rat :=
  if required_skills.isEmpty then .ok 50
  else
    match lowerVals candidate_skills with
    | .error e => .error e
    | .ok csl =>
      let rsl := required_skills.map pyLower
      let matchCnt := rsl.countP (fun sk => csl.contains sk)
      .ok (((matchCnt : Rat) / (rsl.length : Rat)) * 100)

/-- `FilterAI._calculate_experience_match`. -/
def calculate_experience_match (candidate_exp required_exp : String) : Rat :=
  if required_exp == "" then 50
  else
    let cy := extract_years candidate_exp
    let ry := extract_years required_exp
    if ry ≤ cy then 100
    else if (ry : Rat) * 0.8 ≤ (cy : Rat) then 80
    else if (ry : Rat) * 0.6 ≤ (cy : Rat) then 60
    else 30

/-- The fixed six-keyword vocabulary of `FilterAI._calculate_education_match`. -/
def eduScoreKeywords : List String :=
  ["bachelor", "master", "phd", "degree", "university", "college"]

/-- `FilterAI._calculate_education_match`: +20 per keyword found in the
lowercased education text, capped at 100; 50 when the job has no
requirements list. -/
def calculate_education_match (candidate_edu : String)
    (requirements : List String) : Rat :=
  if requirements.isEmpty then 50
  else
    let lower := pyLower candidate_edu
    let score := eduScoreKeywords.foldl
      (fun acc k => if pyIn k lower then acc + 20 else acc) (0 : Rat)
    min score 100

/-- `FilterAI._get_ranking_category`. -/
def get_ranking_category (score : Rat) : String :=
  if 80 ≤ score then "Excellent"
  else if 60 ≤ score then "Good"
  else if 40 ≤ score then "Average"
  else "Below Average"

/-- `FilterAI._generate_recommendations` (the candidate and job arguments are
unused in the source as well; only the score drives the output). -/
def generate_recommendations (_candidate : DCand) (_job : Job)
    (score : Rat) : List String :=
  if 80 ≤ score then
    ["Highly recommended for interview", "Strong match for the position"]
  else if 60 ≤ score then
    ["Good candidate worth considering", "May need some additional evaluation"]
  else if 40 ≤ score then
    ["Average candidate", "Consider for backup positions"]
  else
    ["Below requirements", "May not be suitable for this role"]

/-- Round-half-to-even of a rational to an integer (what Python's `round`
computes on exactly representable values; binary-float representation error is
idealised away). -/
def roundHalfEven (q : Rat) : Int :=
  let f : Int := ⌊q⌋
  let r : Rat := q - (f : Rat)
  if r < 1/2 then f
  else if 1/2 < r then f + 1
  else if f % 2 == 0 then f else f + 1

/-- Python `round(x, 2)` idealised over exact rationals. -/
def pyRound2 (q : Rat) : Rat := (roundHalfEven (q * 100) : Rat) / 100

/-- The analysis dict built by `FilterAI.analyze_candidate`: sub-scores are
stored raw, the overall score is stored rounded to two decimals, while the
ranking category and recommendations are computed from the unrounded value. -/
structure Analysis where
  candidate_id : String
  job_id : String
  skill_match_score : Rat
  experience_match_score : Rat
  education_match_score : Rat
  overall_score : Rat
  ranking : String
  recommendations : List String
deriving DecidableEq, Repr

/-- `FilterAI.analyze_candidate`: the `try` body; any exception (here: a
non-string skill being lowered while the job has required skills) is caught
and turned into an `{"error": ...}` dict, modelled as `.error`. -/
def analyze_candidate (candidate : DCand) (job : Job) : Except String Analysis :=
  match calculate_skill_match candidate.skills job.skills_required with
  | .error e => .error ("Error analyzing candidate: " ++ e)
  | .ok skill_score =>
    let exp_score := calculate_experience_match candidate.experience job.experience_level
    let edu_score := calculate_education_match candidate.education job.requirements
    let overall_score := skill_score * 0.4 + exp_score * 0.3 + edu_score * 0.2 + 10 * 0.1
    .ok { candidate_id := candidate.id
          job_id := job.id
          skill_match_score := skill_score
          experience_match_score := exp_score
          education_match_score := edu_score
          overall_score := pyRound2 overall_score
          ranking := get_ranking_category overall_score
          recommendations := generate_recommendations candidate job overall_score }

/-- A successfully analyzed candidate in `rank_candidates`' working list:
the analysis dict with the `candidate_data` key added. -/
structure RankedA where
  analysis : Analysis
  candidate_data : DCand
deriving DecidableEq, Repr

/-- Stable descending insertion: `a` goes after every earlier element whose
key is ≥ its own.  `List.sort(key=..., reverse=True)` in Python is the stable
sort with respect to this descending preorder; since the stable sort of a
list is unique, this insertion sort is extensionally the source's Timsort. -/
def insertDescBy {α : Type} (key : α → Rat) (a : α) : List α → List α
  | [] => [a]
  | b :: bs => if key b ≤ key a then a :: b :: bs else b :: insertDescBy key a bs

/-- Stable sort, descending by `key` (see `insertDescBy`). -/
def sortDescBy {α : Type} (key : α → Rat) (l : List α) : List α :=
  l.foldr (insertDescBy key) []

/-- The loop of `FilterAI.rank_candidates` before sorting: analyze each
candidate, keep the analyses that carry no `'error'` key, attach
`candidate_data`. -/
def okAnalyses (candidates : List DCand) (job : Job) : List RankedA :=
  candidates.filterMap (fun c =>
    match analyze_candidate c job with
    | .ok a => some ⟨a, c⟩
    | .error _ => none)

/-- `FilterAI.rank_candidates`: failed analyses are dropped, the rest are
sorted by stored overall score, descending, stably. -/
def rank_candidates (candidates : List DCand) (job : Job) : List RankedA :=
  sortDescBy (fun e => e.analysis.overall_score) (okAnalyses candidates job)

/-- Filter criteria dict of `FilterAI.filter_candidates`, with the `.get`
defaults applied (`min_experience` 0, `required_skills` `[]`,
`education_level` `'Any'`, `score_threshold` 0). -/
structure FilterCriteria where
  min_experience : Nat
  required_skills : List String
  education_level : String
  score_threshold : Rat
deriving DecidableEq, Repr

/-- An output record of `filter_candidates`: the candidate dict extended with
`match_score`, `ranking` and `recommendations`. -/
structure FilteredC where
  candidate : DCand
  match_score : Rat
  ranking : String
  recommendations : List String
deriving DecidableEq, Repr

/-- The required-skills check inside the filtering loop (lines 183–188):
skipped when the criteria list is empty; otherwise the candidate's skills are
lowered (raising on a non-string entry) and every required skill must appear. -/
def check_required_skills (skills : List SVal) (required : List String) :
    Except String Bool :=
  if required.isEmpty then .ok true
  else
    match lowerVals skills with
    | .error e => .error e
    | .ok csl => .ok ((required.map pyLower).all (fun sk => csl.contains sk))

/-- The `for candidate_analysis in ranked_candidates` loop of
`filter_candidates`: the four checks in source order; a `continue` drops the
candidate, an exception aborts the whole loop (and is caught by the outer
`try`, failing the batch). -/
def filterLoop (fc : FilterCriteria) : List RankedA → Except String (List FilteredC)
  | [] => .ok []
  | e :: rest =>
    if extract_years e.candidate_data.experience < fc.min_experience then filterLoop fc rest
    else
      match check_required_skills e.candidate_data.skills fc.required_skills with
      | .error msg => .error msg
      | .ok false => filterLoop fc rest
      | .ok true =>
        if fc.education_level != "Any"
            && !(pyIn (pyLower fc.education_level) (pyLower e.candidate_data.education)) then
          filterLoop fc rest
        else if e.analysis.overall_score < fc.score_threshold then filterLoop fc rest
        else
          match filterLoop fc rest with
          | .error msg => .error msg
          | .ok restF =>
            .ok (⟨e.candidate_data, e.analysis.overall_score,
                  e.analysis.ranking, e.analysis.recommendations⟩ :: restF)

/-- Result dict of `FilterAI.filter_candidates` (counts and echoed criteria
are present only on success, message only on failure, as in the source). -/
structure FilterResult where
  success : Bool
  message : Option String
  filtered_candidates : List FilteredC
  total_candidates : Option Nat
  filtered_count : Option Nat
  filter_criteria : Option FilterCriteria
deriving DecidableEq, Repr

/-- `FilterAI.filter_candidates`. -/
def filter_candidates (candidates : List DCand) (job : Job)
    (fc : FilterCriteria) : FilterResult :=
  match filterLoop fc (rank_candidates candidates job) with
  | .ok l =>
    { success := true, message := none, filtered_candidates := l
      total_candidates := some candidates.length
      filtered_count := some l.length, filter_criteria := some fc }
  | .error m =>
    { success := false, message := some ("Error filtering candidates: " ++ m)
      filtered_candidates := [], total_candidates := none
      filtered_count := none, filter_criteria := none }

/-! ## ResumeParser (src/tools/resume_parser.py)

Pure text-extraction heuristics.  PDF handling (`parse_pdf`) is filesystem
I/O and out of scope; `parse_resume` is modelled on its text argument (its
`file_path` branch needs `os.path.exists`, so the text-only call path is the
one embedded, exactly as the spec's FieldExtractor contract describes).
Each regex below is transcribed next to a comment quoting the source
pattern. -/

/-- `[A-Z]`. -/
def upCls : RE := .cls Char.isUpper

/-- `[a-z]`. -/
def loCls : RE := .cls Char.isLower

/-- A letter under `re.IGNORECASE`, where `[A-Z]` and `[a-z]` both match any
ASCII letter. -/
def alphaCls : RE := .cls Char.isAlpha

/-- `r'\b[A-Za-z0-9._%+-]+@[A-Za-z0-9.-]+\.[A-Z|a-z]{2,}\b'` (the source class
`[A-Z|a-z]` really contains the bar character). -/
def emailPat : RE :=
  reSeqL [.bnd,
          rePlus (.cls (fun c => c.isAlphanum || c == '.' || c == '_' || c == '%' || c == '+' || c == '-')),
          chr '@',
          rePlus (.cls (fun c => c.isAlphanum || c == '.' || c == '-')),
          chr '.',
          .cls (fun c => c.isAlpha || c == '|'), .cls (fun c => c.isAlpha || c == '|'),
          .star (.cls (fun c => c.isAlpha || c == '|')),
          .bnd]

/-- `ResumeParser.extract_email`: first match wins, `None` otherwise. -/
def extract_email (text : String) : Option String :=
  ((reFindAll emailPat text).head?).map (fun m => m.whole)

/-- The four anchored per-line name patterns of `extract_name` (used with
`re.match`, i.e. at the start of the stripped line; they all end in `$`):
`r'^[A-Z][a-z]+\s+[A-Z][a-z]+$'`, `r'^[A-Z][a-z]+\s+[A-Z]\.\s+[A-Z][a-z]+$'`,
`r'^[A-Z][a-z]+\s+[A-Z][a-z]+\s+[A-Z][a-z]+$'`, `r'^[A-Z][A-Z\s]+$'`. -/
def nameLinePatterns : List RE :=
  [reSeqL [upCls, rePlus loCls, wsPlus, upCls, rePlus loCls, .eos],
   reSeqL [upCls, rePlus loCls, wsPlus, upCls, chr '.', wsPlus, upCls, rePlus loCls, .eos],
   reSeqL [upCls, rePlus loCls, wsPlus, upCls, rePlus loCls, wsPlus, upCls, rePlus loCls, .eos],
   reSeqL [upCls, rePlus (.cls (fun c => c.isUpper || pySpace c)), .eos]]

/-- `([A-Z][a-z]+(?:\s+[A-Z][a-z]+)*)` under `re.IGNORECASE`. -/
def nameGrp : RE :=
  .group (reSeqL [alphaCls, rePlus alphaCls,
                  .star (reSeqL [wsPlus, alphaCls, rePlus alphaCls])])

/-- The contact fallback patterns of `extract_name`, searched with
`re.IGNORECASE` over the whole text:
`r'name[:\s]+([A-Z][a-z]+(?:\s+[A-Z][a-z]+)*)'`,
`r'([A-Z][a-z]+(?:\s+[A-Z][a-z]+)*)\s*[-|]\s*resume'`,
`r'([A-Z][a-z]+(?:\s+[A-Z][a-z]+)*)\s*[-|]\s*cv'`. -/
def contactPatterns : List RE :=
  [reSeqL [litIC "name", rePlus (.cls (fun c => c == ':' || pySpace c)), nameGrp],
   reSeqL [nameGrp, wsStar, .cls (fun c => c == '-' || c == '|'), wsStar, litIC "resume"],
   reSeqL [nameGrp, wsStar, .cls (fun c => c == '-' || c == '|'), wsStar, litIC "cv"]]

/-- `ResumeParser.extract_name`: scan the first 10 lines, stripped, of length
1–49, against the anchored patterns; otherwise the first contact-pattern
match (its capture, stripped); otherwise `None`. -/
def extract_name (text : String) : Option String :=
  let lines := (pySplitOn text '\n').take 10
  let fromLines := lines.findSome? (fun line =>
    let l := pyStrip line
    if 0 < l.length ∧ l.length < 50 then
      if nameLinePatterns.any (fun p => reTest p l) then some l else none
    else none)
  match fromLines with
  | some n => some n
  | none =>
    contactPatterns.findSome? (fun p =>
      ((reFindAll p text).head?).map (fun m => pyStrip (m.groups.getD 0 "")))

/-- `[-.\s]`. -/
def sepCls : RE := .cls (fun c => c == '-' || c == '.' || pySpace c)

/-- `\d{1,3}` (greedy). -/
def d13 : RE := reSeqL [dCls, .opt (reSeqL [dCls, .opt dCls])]

/-- The 17 phone patterns of `extract_phone`, in source order (note the two
duplicates, and that `\b` before `(` or `+` requires a word character on the
left, exactly as in Python):
`\b\d{3}-\d{3}-\d{4}\b`, `\b\d{3}\.\d{3}\.\d{4}\b`, `\b\d{3}\s\d{3}\s\d{4}\b`,
`\b\(\d{3}\)\s\d{3}-\d{4}\b`, `\b\+\d{1,3}\s\d{3}-\d{3}-\d{4}\b`,
`\b\+\d{1,3}\s\d{3}\s\d{3}\s\d{4}\b`, `\b\d{10}\b`, `\b\d{5}\s\d{5}\b`,
`\b\d{3}\s\d{3}\s\d{4}\b`, `\b\d{2}\s\d{4}\s\d{4}\b`, `\b\d{4}\s\d{3}\s\d{3}\b`,
`\b\+91\s?\d{10}\b`, `\b\+1\s?\d{10}\b`, `\b\+91\s?\d{5}\s\d{5}\b`,
`\b\+91\s?\d{3}\s\d{3}\s\d{4}\b`, `\b\d{3}[-.\s]\d{3}[-.\s]\d{4}\b`,
`\b\d{3}[-.\s]\d{4}[-.\s]\d{3}\b`. -/
def phonePatterns : List RE :=
  [reSeqL [.bnd, dRep 3, chr '-', dRep 3, chr '-', dRep 4, .bnd],
   reSeqL [.bnd, dRep 3, chr '.', dRep 3, chr '.', dRep 4, .bnd],
   reSeqL [.bnd, dRep 3, wsCls, dRep 3, wsCls, dRep 4, .bnd],
   reSeqL [.bnd, chr '(', dRep 3, chr ')', wsCls, dRep 3, chr '-', dRep 4, .bnd],
   reSeqL [.bnd, chr '+', d13, wsCls, dRep 3, chr '-', dRep 3, chr '-', dRep 4, .bnd],
   reSeqL [.bnd, chr '+', d13, wsCls, dRep 3, wsCls, dRep 3, wsCls, dRep 4, .bnd],
   reSeqL [.bnd, dRep 10, .bnd],
   reSeqL [.bnd, dRep 5, wsCls, dRep 5, .bnd],
   reSeqL [.bnd, dRep 3, wsCls, dRep 3, wsCls, dRep 4, .bnd],
   reSeqL [.bnd, dRep 2, wsCls, dRep 4, wsCls, dRep 4, .bnd],
   reSeqL [.bnd, dRep 4, wsCls, dRep 3, wsCls, dRep 3, .bnd],
   reSeqL [.bnd, lit "+91", .opt wsCls, dRep 10, .bnd],
   reSeqL [.bnd, lit "+1", .opt wsCls, dRep 10, .bnd],
   reSeqL [.bnd, lit "+91", .opt wsCls, dRep 5, wsCls, dRep 5, .bnd],
   reSeqL [.bnd, lit "+91", .opt wsCls, dRep 3, wsCls, dRep 3, wsCls, dRep 4, .bnd],
   reSeqL [.bnd, dRep 3, sepCls, dRep 3, sepCls, dRep 4, .bnd],
   reSeqL [.bnd, dRep 3, sepCls, dRep 4, sepCls, dRep 3, .bnd]]

/-- `r'\b\d{10,15}\b'` (greedy `{10,15}`: prefer the longest run). -/
def digitRunPat : RE :=
  reSeqL [.bnd, dRep 10,
          .opt (.seq dCls (.opt (.seq dCls (.opt (.seq dCls (.opt (.seq dCls (.opt dCls)))))))),
          .bnd]

/-- `ResumeParser.extract_phone`: first match of the first pattern that hits;
otherwise the first 10-or-11-digit bare run; otherwise `None`. -/
def extract_phone (text : String) : Option String :=
  match phonePatterns.findSome? (fun p => ((reFindAll p text).head?).map (fun m => m.whole)) with
  | some ph => some ph
  | none =>
    ((reFindAll digitRunPat text).map (fun m => m.whole)).findSome?
      (fun d => if d.length == 10 || d.length == 11 then some d else none)

/-- The fixed skills vocabulary of `ResumeParser.__init__`. -/
def skills_keywords : List String :=
  ["python", "java", "javascript", "c++", "c#", "php", "ruby", "go", "rust",
   "react", "angular", "vue", "html", "css", "node.js", "express", "django", "flask",
   "sql", "mysql", "postgresql", "mongodb", "redis", "oracle",
   "aws", "azure", "gcp", "docker", "kubernetes", "jenkins", "ci/cd",
   "machine learning", "deep learning", "tensorflow", "pytorch", "pandas", "numpy",
   "git", "linux", "agile", "scrum", "rest api", "microservices"]

/-- `ResumeParser.extract_skills`: case-insensitive substring membership of
each keyword.  The source returns `list(set(found_skills))`; the found
keywords are pairwise distinct, so the set only forgets the (unspecified
hash-based) ordering, and we keep vocabulary order. -/
def extract_skills (text : String) : List String :=
  let tl := pyLower text
  skills_keywords.filter (fun sk => pyIn (pyLower sk) tl)

/-- The 17 experience patterns of `extract_experience`, in source order,
searched with `re.IGNORECASE` (captures are digits, so lowering only the
letters is exact):
`(\d+)\s*years?\s*of\s*experience`, `(\d+)\s*years?\s*experience`,
`experience:\s*(\d+)\s*years?`, `(\d+)\+\s*years?`,
`(\d+)\s*years?\s*in\s*the\s*field`, `(\d+)\s*years?\s*of\s*work`,
`(\d+)\s*years?\s*professional`, `(\d+)\s*years?\s*industry`,
`(\d+)\s*years?\s*(\d+)\s*months?\s*experience`, `(\d+)\s*years?\s*(\d+)\s*months?`,
`experience.*?(\d+)\s*years?`, `(\d+)\s*years?.*?experience`,
`worked\s*for\s*(\d+)\s*years?`, `(\d+)\s*years?\s*of\s*work\s*history`,
`(\d+)\s*years?\s*internship`, `(\d+)\s*years?\s*part.?time`,
`(\d+)\s*years?\s*project\s*experience`. -/
def expPatterns : List RE :=
  [reSeqL [grpDigits, wsStar, litIC "year", optS, wsStar, litIC "of", wsStar, litIC "experience"],
   reSeqL [grpDigits, wsStar, litIC "year", optS, wsStar, litIC "experience"],
   reSeqL [litIC "experience:", wsStar, grpDigits, wsStar, litIC "year", optS],
   reSeqL [grpDigits, chr '+', wsStar, litIC "year", optS],
   reSeqL [grpDigits, wsStar, litIC "year", optS, wsStar, litIC "in", wsStar, litIC "the", wsStar, litIC "field"],
   reSeqL [grpDigits, wsStar, litIC "year", optS, wsStar, litIC "of", wsStar, litIC "work"],
   reSeqL [grpDigits, wsStar, litIC "year", optS, wsStar, litIC "professional"],
   reSeqL [grpDigits, wsStar, litIC "year", optS, wsStar, litIC "industry"],
   reSeqL [grpDigits, wsStar, litIC "year", optS, wsStar, grpDigits, wsStar, litIC "month", optS, wsStar, litIC "experience"],
   reSeqL [grpDigits, wsStar, litIC "year", optS, wsStar, grpDigits, wsStar, litIC "month", optS],
   reSeqL [litIC "experience", .lazyStar dotCls, grpDigits, wsStar, litIC "year", optS],
   reSeqL [grpDigits, wsStar, litIC "year", optS, .lazyStar dotCls, litIC "experience"],
   reSeqL [litIC "worked", wsStar, litIC "for", wsStar, grpDigits, wsStar, litIC "year", optS],
   reSeqL [grpDigits, wsStar, litIC "year", optS, wsStar, litIC "of", wsStar, litIC "work", wsStar, litIC "history"],
   reSeqL [grpDigits, wsStar, litIC "year", optS, wsStar, litIC "internship"],
   reSeqL [grpDigits, wsStar, litIC "year", optS, wsStar, litIC "part", .opt dotCls, litIC "time"],
   reSeqL [grpDigits, wsStar, litIC "year", optS, wsStar, litIC "project", wsStar, litIC "experience"]]

/-- `(\d{4}|\bpresent\b|\bcurrent\b)` (second group of the date-range
patterns). -/
def dateEndAlt : RE :=
  .alt (dRep 4) (.alt (reSeqL [.bnd, litIC "present", .bnd])
                      (reSeqL [.bnd, litIC "current", .bnd]))

/-- The three date-range patterns (the first and third coincide in the
source):
`(\d{4})\s*[-–]\s*(\d{4}|\bpresent\b|\bcurrent\b)`,
`(\d{4})\s*to\s*(\d{4}|\bpresent\b|\bcurrent\b)`,
`(\d{4})\s*-\s*(\d{4}|\bpresent\b|\bcurrent\b)`. -/
def datePatterns : List RE :=
  [reSeqL [.group (dRep 4), wsStar, .cls (fun c => c == '-' || c == '–'), wsStar, .group dateEndAlt],
   reSeqL [.group (dRep 4), wsStar, litIC "to", wsStar, .group dateEndAlt],
   reSeqL [.group (dRep 4), wsStar, chr '-', wsStar, .group dateEndAlt]]

/-- The work-history section names of `extract_experience`. -/
def work_sections : List String :=
  ["work experience", "employment history", "professional experience",
   "career history", "work history", "employment"]

/-- The keyword → experience-band fallback dict (Python dicts iterate in
insertion order). -/
def experience_keywords : List (String × String) :=
  [("entry level", "0-1 years"), ("junior", "1-3 years"), ("mid level", "3-5 years"),
   ("senior", "5-10 years"), ("lead", "5-10 years"), ("principal", "10+ years"),
   ("expert", "10+ years"), ("fresher", "0-1 years"), ("new graduate", "0-1 years"),
   ("student", "0-1 years"), ("undergraduate", "0-1 years"), ("bachelor", "0-1 years"),
   ("final year", "0-1 years"), ("graduating", "0-1 years"), ("internship", "0-1 years"),
   ("project", "0-1 years")]

/-- The work-history date-range fallback of `extract_experience`: for the
first section name contained in the lowered text, scan the whole text with
each date pattern; the first range whose year difference lies in 0–50 yields
`"{years} years"` ("present"/"current" resolve to `currentYear`, read from
the clock in the source). -/
def dateRangeBranch (currentYear : Int) (text : String) : Option String :=
  work_sections.findSome? (fun sect =>
    if pyIn (pyLower sect) (pyLower text) then
      datePatterns.findSome? (fun p =>
        (reFindAll p text).findSome? (fun m =>
          let sy := m.groups.getD 0 ""
          let ey := m.groups.getD 1 ""
          let startY : Int := (natOfDigits sy : Int)
          let endY : Int := if pyLower ey == "present" || pyLower ey == "current" then currentYear
                            else (natOfDigits ey : Int)
          let years := endY - startY
          if 0 ≤ years ∧ years ≤ 50 then some (natToStr years.toNat ++ " years") else none))
    else none)

/-- `ResumeParser.extract_experience`.  A quirk carried over faithfully: in
`if len(matches[0]) == 2`, `matches[0]` is a tuple only for the two-group
patterns; for one-group patterns it is the captured string, so a two-DIGIT
capture (e.g. "12") is unpacked character-wise into `"1 years 2 months"`. -/
def extract_experience (currentYear : Int) (text : String) : Option String :=
  match expPatterns.findSome? (fun p => (reFindAll p text).head?) with
  | some m =>
    if m.groups.length == 2 then
      some ((m.groups.getD 0 "") ++ " years " ++ (m.groups.getD 1 "") ++ " months")
    else
      let g := m.groups.getD 0 ""
      if g.length == 2 then
        some (String.mk [g.toList.getD 0 ' '] ++ " years " ++ String.mk [g.toList.getD 1 ' '] ++ " months")
      else some (g ++ " years")
  | none =>
    match dateRangeBranch currentYear text with
    | some r => some r
    | none =>
      experience_keywords.findSome? (fun kv =>
        if pyIn kv.1 (pyLower text) then some kv.2 else none)

/-- The education vocabulary of `extract_education`. -/
def edu_keywords : List String :=
  ["bachelor", "master", "phd", "degree", "university", "college",
   "b.s.", "b.a.", "m.s.", "m.a.", "mba", "ph.d."]

/-- `ResumeParser.extract_education`: for each vocabulary keyword contained in
the lowered text, the first sentence (split on `'.'`) containing it, stripped;
joined with `"; "`, `None` when empty.  (Keywords containing dots can never be
found inside a dot-split sentence — faithful to the source.) -/
def extract_education (text : String) : Option String :=
  let tl := pyLower text
  let sentences := pySplitOn text '.'
  let info := edu_keywords.filterMap (fun k =>
    if pyIn k tl then
      (sentences.find? (fun sent => pyIn k (pyLower sent))).map pyStrip
    else none)
  if info.isEmpty then none else some (pyJoin "; " info)

/-- The record `parse_resume` builds for non-empty text. -/
structure ParsedData where
  name : Option String
  email : Option String
  phone : Option String
  skills : List String
  experience : Option String
  education : Option String
  raw_text : String
deriving DecidableEq, Repr

/-- Result of `parse_resume`: the `{"error": ...}` dict or the populated
record. -/
inductive ParseResult where
  | err (msg : String)
  | ok (d : ParsedData)
deriving DecidableEq, Repr

/-- `ResumeParser.parse_resume` on its text argument (`file_path = None`):
`if not text` catches both absent and empty text with the explicit no-content
error; otherwise every field is a best-effort extraction, `None`/`[]` when
nothing matches. -/
def parse_resume (currentYear : Int) (text : Option String) : ParseResult :=
  match text with
  | none => .err "No text content found"
  | some t =>
    if t == "" then .err "No text content found"
    else .ok { name := extract_name t, email := extract_email t,
               phone := extract_phone t, skills := extract_skills t,
               experience := extract_experience currentYear t,
               education := extract_education t, raw_text := t }

/-- The year count embodied in `extract_experience`'s answer, read the same
way the scoring engine reads stored experience strings (`_extract_years` of
the result; 0 when nothing was extracted).  This is exactly what the §4.1
extraction feeds into the pipeline. -/
def parserYearCount (currentYear : Int) (t : String) : Nat :=
  match extract_experience currentYear t with
  | some s => extract_years s
  | none => 0

/-! ## Store (src/agents/store_keeper.py, src/utils/helpers.py)

The persistence layer is whole-file JSON read/rewrite.  The spec places the
JSON file-I/O primitives outside the core, so the file is modelled as a pure
state: `none` for a missing file (on which `load_json` returns `{}`), and
otherwise the document, of which only the `"candidates"` key matters to the
embedded operations (other keys are untouched by them).  `save_json` is
modelled as succeeding; the source turns an I/O failure into a
`success=False` dict, and the claims about these operations are conditioned
on the write succeeding.  A stored candidate record keeps its JSON shape
abstract (`payload`) except for the `id`/`status` keys the operations read
and write; `.get("id")` of a record without an id is `None`. -/

/-- A candidate record in the store. -/
structure CandRec (α : Type) where
  id? : Option String
  status? : Option String
  payload : α
deriving DecidableEq, Repr

/-- The JSON document of the candidates file (only the `"candidates"` key is
relevant to the embedded operations; `none` = key absent). -/
structure StoreDoc (α : Type) where
  candidatesKey : Option (List (CandRec α))
deriving DecidableEq, Repr

/-- `load_json`: `{}` when the file is missing. -/
def load_json {α : Type} (st : Option (StoreDoc α)) : StoreDoc α :=
  st.getD ⟨none⟩

/-- `StoreKeeper.get_candidates`: `load_json(...).get("candidates", [])`. -/
def get_candidates {α : Type} (st : Option (StoreDoc α)) : List (CandRec α) :=
  (load_json st).candidatesKey.getD []

/-- `append_to_json_list(data, filepath, "candidates")`: read the document,
create the key as `[]` when absent, append, write back.  Returns the write
result (modelled as succeeding) and the new file state. -/
def append_to_json_list {α : Type} (data : CandRec α) (st : Option (StoreDoc α)) :
    Bool × Option (StoreDoc α) :=
  let d := load_json st
  let lst := d.candidatesKey.getD []
  (true, some ⟨some (lst ++ [data])⟩)

/-- Result dict `{"success": ..., "message": ...}` of the StoreKeeper
operations. -/
structure OpResult where
  success : Bool
  message : String
deriving DecidableEq, Repr

/-- `StoreKeeper.store_candidate`. -/
def store_candidate {α : Type} (candidate_data : CandRec α)
    (st : Option (StoreDoc α)) : OpResult × Option (StoreDoc α) :=
  let r := append_to_json_list candidate_data st
  if r.1 then (⟨true, "Candidate stored successfully"⟩, r.2)
  else (⟨false, "Failed to store candidate"⟩, r.2)

/-- The `for candidate in candidates: if candidate.get("id") == candidate_id:
candidate["status"] = status; break` loop of `update_candidate_status`:
mutate the first record with the given id, leave the rest alone. -/
def setStatusFirst {α : Type} (cid status : String) :
    List (CandRec α) → List (CandRec α)
  | [] => []
  | c :: cs =>
    if c.id? == some cid then { c with status? := some status } :: cs
    else c :: setStatusFirst cid status cs

/-- `StoreKeeper.update_candidate_status`: load, mutate the first matching
record (no-op when no id matches — the loop simply finds nothing), store the
list back under `"candidates"`, report the write result.  No not-found
signal exists in the source. -/
def update_candidate_status {α : Type} (candidate_id status : String)
    (st : Option (StoreDoc α)) : OpResult × Option (StoreDoc α) :=
  let d := load_json st
  let candidates := d.candidatesKey.getD []
  let updated := setStatusFirst candidate_id status candidates
  (⟨true, "Status updated successfully"⟩, some ⟨some updated⟩)

/-! ## Concrete instances used to witness and refute the claims -/

/-- A candidate all three of whose sub-scores are 100 against `jobMax`. -/
def candMax : DCand :=
  ⟨"c1", [SVal.s "Python"], "10 years", "bachelor master phd degree university"⟩

/-- Job making all three of `candMax`'s sub-scores 100. -/
def jobMax : Job := ⟨"j1", ["Python"], "5 years", ["req"]⟩

/-- A candidate at the attainable minimum (skill 0, experience 30,
education 0) against `jobMin`. -/
def candMin : DCand := ⟨"c0", [], "", ""⟩

/-- Job making `candMin`'s sub-scores 0 / 30 / 0. -/
def jobMin : Job := ⟨"j0", ["python"], "5 years", ["x"]⟩

/-- Analysis dict `analyze_candidate` produces for `candMax` / `jobMax`. -/
def analysisMax : Analysis :=
  ⟨"c1", "j1", 100, 100, 100, 91, "Excellent",
   ["Highly recommended for interview", "Strong match for the position"]⟩

/-- Analysis dict `analyze_candidate` produces for `candMin` / `jobMin`. -/
def analysisMin : Analysis :=
  ⟨"c0", "j0", 0, 30, 0, 10, "Below Average",
   ["Below requirements", "May not be suitable for this role"]⟩

/-- Candidate list for the `filter_candidates` witness. -/
def csW3 : List DCand := [⟨"c1", [SVal.s "python"], "5 years", "bachelor"⟩]

/-- Job for the `filter_candidates` witness. -/
def jW3 : Job := ⟨"j1", ["python"], "3 years", ["r"]⟩

/-- Criteria for the `filter_candidates` witness. -/
def fcW3 : FilterCriteria := ⟨2, ["python"], "Any", 50⟩

/-- The record `filter_candidates csW3 jW3 fcW3` outputs. -/
def xW3 : FilteredC :=
  ⟨⟨"c1", [SVal.s "python"], "5 years", "bachelor"⟩, 75, "Good",
   ["Good candidate worth considering", "May need some additional evaluation"]⟩

/-- A well-typed candidate that scores fine. -/
def cGood1 : DCand := ⟨"g1", [SVal.s "python"], "4 years", "bachelor"⟩

/-- Another well-typed candidate. -/
def cGood2 : DCand := ⟨"g2", [], "10 years", "master"⟩

/-- A candidate whose non-string skill entry makes scoring raise. -/
def cBad : DCand := ⟨"bad", [SVal.nonstr], "1 years", ""⟩

/-- Job used for the ranking error-isolation witness (its required skills
force the failing `skills` lowering). -/
def jW8 : Job := ⟨"j8", ["python"], "3 years", ["x"]⟩

/-- The error message `analyze_candidate cBad jW8` is caught with. -/
def errW8 : String :=
  "Error analyzing candidate: AttributeError: object has no attribute lower"

/-- A store state holding one candidate with id "a", for the status-update
witness. -/
def stW10 : Option (StoreDoc Nat) := some ⟨some [⟨some "a", some "new", 0⟩]⟩

/-! ## Helper lemmas -/

/-- Lowering a list of genuine strings never raises. -/
theorem lowerVals_map_s (l : List String) :
    lowerVals (l.map SVal.s) = .ok (l.map pyLower) := by
  induction l with
  | nil => rfl
  | cons a t ih => simp [lowerVals, lowerVal, ih]

/-- The skill sub-score is within [0, 100] whenever it is computed. -/
theorem calculate_skill_match_bounds (cs : List SVal) (rs : List String) (q : Rat)
    (h : calculate_skill_match cs rs = .ok q) : 0 ≤ q ∧ q ≤ 100 := by
  unfold calculate_skill_match at h
  split at h
  · cases h; norm_num
  · rename_i hemp
    cases hlv : lowerVals cs with
    | error e => rw [hlv] at h; cases h
    | ok csl =>
      rw [hlv] at h
      cases h
      have hlen : 0 < rs.length := by
        cases rs with
        | nil => simp at hemp
        | cons a t => simp
      have hlenq : (0 : Rat) < ((rs.map pyLower).length : Rat) := by
        simp [List.length_map]
        exact_mod_cast hlen
      have hcnt : ((List.countP (fun sk => csl.contains sk) (rs.map pyLower) : Nat) : Rat)
          ≤ ((rs.map pyLower).length : Rat) := by
        exact_mod_cast List.countP_le_length _
      constructor
      · positivity
      · have hdiv : ((List.countP (fun sk => csl.contains sk) (rs.map pyLower) : Nat) : Rat) /
            ((rs.map pyLower).length : Rat) ≤ 1 := by
          rw [div_le_one hlenq]; exact hcnt
        nlinarith [hdiv]

/-- The experience sub-score is one of 30/50/60/80/100; in particular it is
within [30, 100] — never 0. -/
theorem calculate_experience_match_bounds (a b : String) :
    30 ≤ calculate_experience_match a b ∧ calculate_experience_match a b ≤ 100 := by
  simp only [calculate_experience_match]
  constructor <;> split_ifs <;> norm_num

/-- The education fold only ever adds nonnegative increments. -/
theorem eduFold_nonneg (l : List String) (s : String) (acc : Rat) (h : 0 ≤ acc) :
    0 ≤ l.foldl (fun acc k => if pyIn k s then acc + 20 else acc) acc := by
  induction l generalizing acc with
  | nil => simpa
  | cons k t ih =>
    simp only [List.foldl]
    split
    · exact ih _ (by linarith)
    · exact ih _ h

/-- The education sub-score is within [0, 100]. -/
theorem calculate_education_match_bounds (e : String) (reqs : List String) :
    0 ≤ calculate_education_match e reqs ∧ calculate_education_match e reqs ≤ 100 := by
  unfold calculate_education_match
  split
  · norm_num
  · exact ⟨le_min (eduFold_nonneg _ _ _ le_rfl) (by norm_num), min_le_right _ _⟩

/-- `roundHalfEven` never rounds below an integer lower bound. -/
theorem roundHalfEven_ge {q : Rat} {n : Int} (h : (n : Rat) ≤ q) :
    n ≤ roundHalfEven q := by
  have hf : n ≤ ⌊q⌋ := Int.le_floor.mpr h
  simp only [roundHalfEven]
  split_ifs <;> omega

/-- `roundHalfEven` never rounds above an integer upper bound. -/
theorem roundHalfEven_le {q : Rat} {m : Int} (h : q ≤ (m : Rat)) :
    roundHalfEven q ≤ m := by
  simp only [roundHalfEven]
  have hf : ⌊q⌋ ≤ m := by
    have := Int.floor_le_floor h
    simpa using this
  have hfl : (⌊q⌋ : Rat) ≤ q := Int.floor_le q
  split_ifs with h1 h2 h3
  · exact hf
  · -- 1/2 < q - ⌊q⌋ : then ⌊q⌋ + 1/2 < q ≤ m, so ⌊q⌋ < m
    have hlt : (⌊q⌋ : Rat) + 1/2 < (m : Rat) := by linarith
    have hfm : (⌊q⌋ : Rat) < (m : Rat) := by linarith
    have : ⌊q⌋ < m := by exact_mod_cast hfm
    omega
  · exact hf
  · -- q - ⌊q⌋ = 1/2 : then ⌊q⌋ + 1/2 ≤ m, so ⌊q⌋ < m
    have hr : q - (⌊q⌋ : Rat) = 1/2 := le_antisymm (not_lt.mp h2) (not_lt.mp h1)
    have : (⌊q⌋ : Rat) + 1/2 ≤ (m : Rat) := by linarith
    have : ⌊q⌋ < m := by
      by_contra hc
      push_neg at hc
      have : (m : Rat) ≤ (⌊q⌋ : Rat) := by exact_mod_cast hc
      linarith
    omega

/-- `pyRound2` stays within any integer interval containing its argument. -/
theorem pyRound2_bounds {q : Rat} {lo hi : Int} (h1 : (lo : Rat) ≤ q)
    (h2 : q ≤ (hi : Rat)) : (lo : Rat) ≤ pyRound2 q ∧ pyRound2 q ≤ (hi : Rat) := by
  unfold pyRound2
  have g1 : (100 * lo) ≤ roundHalfEven (q * 100) := by
    apply roundHalfEven_ge
    push_cast
    linarith
  have g2 : roundHalfEven (q * 100) ≤ 100 * hi := by
    apply roundHalfEven_le
    push_cast
    linarith
  have g1q : ((100 * lo : Int) : Rat) ≤ (roundHalfEven (q * 100) : Rat) := by exact_mod_cast g1
  have g2q : ((roundHalfEven (q * 100) : Int) : Rat) ≤ ((100 * hi : Int) : Rat) := by exact_mod_cast g2
  push_cast at g1q g2q
  constructor
  · rw [le_div_iff₀ (by norm_num : (0 : Rat) < 100)]
    linarith
  · rw [div_le_iff₀ (by norm_num : (0 : Rat) < 100)]
    linarith

/-- Membership in a stable descending insertion. -/
theorem mem_insertDescBy {α : Type} (key : α → Rat) (a x : α) (l : List α) :
    x ∈ insertDescBy key a l ↔ x = a ∨ x ∈ l := by
  induction l with
  | nil => simp [insertDescBy]
  | cons b bs ih =>
    simp only [insertDescBy]
    split
    · simp [List.mem_cons]
      try tauto
    · simp [List.mem_cons, ih]
      try tauto

/-- Stable descending insertion preserves descending order. -/
theorem pairwise_insertDescBy {α : Type} (key : α → Rat) (a : α) (l : List α)
    (h : l.Pairwise (fun x y => key y ≤ key x)) :
    (insertDescBy key a l).Pairwise (fun x y => key y ≤ key x) := by
  induction l with
  | nil => simp [insertDescBy]
  | cons b bs ih =>
    rcases List.pairwise_cons.mp h with ⟨hb, hbs⟩
    simp only [insertDescBy]
    split
    · rename_i hba
      refine List.pairwise_cons.mpr ⟨?_, h⟩
      intro y hy
      rcases List.mem_cons.mp hy with rfl | hy2
      · exact hba
      · exact le_trans (hb y hy2) hba
    · rename_i hba
      refine List.pairwise_cons.mpr ⟨?_, ih hbs⟩
      intro y hy
      rcases (mem_insertDescBy key a y bs).mp hy with rfl | hy2
      · exact le_of_lt (lt_of_not_le hba)
      · exact hb y hy2

/-- The output of the stable descending sort is descending. -/
theorem sortDescBy_pairwise {α : Type} (key : α → Rat) (l : List α) :
    (sortDescBy key l).Pairwise (fun x y => key y ≤ key x) := by
  induction l with
  | nil => simp [sortDescBy]
  | cons a t ih =>
    simp only [sortDescBy, List.foldr] at ih ⊢
    exact pairwise_insertDescBy key a _ ih

/-- Inserting an element commutes with filtering on one key value: the new
element lands in front of exactly the equal-keyed part, which is stability. -/
theorem filter_insertDescBy {α : Type} (key : α → Rat) (a : α) (l : List α) (q : Rat) :
    (insertDescBy key a l).filter (fun x => decide (key x = q)) =
      if key a = q then a :: l.filter (fun x => decide (key x = q))
      else l.filter (fun x => decide (key x = q)) := by
  induction l with
  | nil =>
    by_cases ha : key a = q <;> simp [insertDescBy, List.filter, ha]
  | cons b bs ih =>
    simp only [insertDescBy]
    split
    · by_cases ha : key a = q <;> by_cases hb : key b = q <;>
        simp [List.filter, ha, hb]
    · rename_i hba
      by_cases ha : key a = q
      · have hb : ¬ key b = q := by
          intro hb
          exact hba (by rw [hb, ha])
        simp [List.filter, ih, ha, hb]
      · by_cases hb : key b = q <;> simp [List.filter, ih, ha, hb]

/-- Stability of the descending sort: for each key value, the equal-keyed
elements come out in exactly their input order. -/
theorem sortDescBy_filter {α : Type} (key : α → Rat) (l : List α) (q : Rat) :
    (sortDescBy key l).filter (fun x => decide (key x = q)) =
      l.filter (fun x => decide (key x = q)) := by
  induction l with
  | nil => rfl
  | cons a t ih =>
    simp only [sortDescBy, List.foldr] at ih ⊢
    rw [filter_insertDescBy]
    by_cases ha : key a = q <;> simp [List.filter, ha, ih]

/-- Every record the filtering loop emits passed all four checks: minimum
experience, required skills, education level, score threshold. -/
theorem filterLoop_mem (fc : FilterCriteria) (l : List RankedA)
    (res : List FilteredC) (h : filterLoop fc l = .ok res) (x : FilteredC)
    (hx : x ∈ res) :
    fc.min_experience ≤ extract_years x.candidate.experience ∧
    check_required_skills x.candidate.skills fc.required_skills = .ok true ∧
    (fc.education_level ≠ "Any" →
      pyIn (pyLower fc.education_level) (pyLower x.candidate.education) = true) ∧
    fc.score_threshold ≤ x.match_score := by
  induction l generalizing res with
  | nil =>
    simp only [filterLoop] at h
    cases h
    cases hx
  | cons e rest ih =>
    unfold filterLoop at h
    by_cases hyears : extract_years e.candidate_data.experience < fc.min_experience
    · rw [if_pos hyears] at h
      exact ih res h hx
    · rw [if_neg hyears] at h
      cases hskills : check_required_skills e.candidate_data.skills fc.required_skills with
      | error msg => rw [hskills] at h; cases h
      | ok b =>
        rw [hskills] at h
        cases b with
        | false => exact ih res h hx
        | true =>
          by_cases hedu : (fc.education_level != "Any"
              && !(pyIn (pyLower fc.education_level) (pyLower e.candidate_data.education))) = true
          · rw [if_pos hedu] at h
            exact ih res h hx
          · rw [if_neg hedu] at h
            by_cases hscore : e.analysis.overall_score < fc.score_threshold
            · rw [if_pos hscore] at h
              exact ih res h hx
            · rw [if_neg hscore] at h
              cases hrest : filterLoop fc rest with
              | error m => rw [hrest] at h; cases h
              | ok restF =>
                rw [hrest] at h
                cases h
                rcases List.mem_cons.mp hx with rfl | hx2
                · refine ⟨Nat.le_of_not_lt hyears, hskills, ?_, le_of_not_lt hscore⟩
                  intro hlvl
                  by_contra hpy
                  apply hedu
                  simp only [Bool.and_eq_true, bne_iff_ne, ne_eq, Bool.not_eq_true']
                  exact ⟨hlvl, by simpa using hpy⟩
                · exact ih restF hrest hx2

/-- When no stored record has the requested id, the status-update loop is the
identity. -/
theorem setStatusFirst_eq_of_not_found {α : Type} (cid status : String)
    (l : List (CandRec α)) (h : ∀ c ∈ l, c.id? ≠ some cid) :
    setStatusFirst cid status l = l := by
  induction l with
  | nil => rfl
  | cons c cs ih =>
    have hc : c.id? ≠ some cid := h c (List.mem_cons_self c cs)
    have hbeq : (c.id? == some cid) = false := by
      simpa using hc
    simp [setStatusFirst, hbeq,
          ih (fun d hd => h d (List.mem_cons_of_mem c hd))]

/-! ## Claims -/

/-- C1 (amended): the overall score `analyze_candidate` computes equals
`skill*0.4 + experience*0.3 + education*0.2 + 10*0.1` and always lies within
[0, 100]; but its extreme values are 10 — attained at sub-scores 0 / 30 / 0,
the experience sub-score never being 0 — and 91, attained when all three
sub-scores are 100 (not 100, and not from all-zero sub-scores, which the
formula would send to 1 and which are unattainable). -/
theorem claim_C1 :
    (∀ (c : DCand) (j : Job) (a : Analysis),
      analyze_candidate c j = .ok a →
      a.overall_score =
        pyRound2 (a.skill_match_score * 0.4 + a.experience_match_score * 0.3 +
                  a.education_match_score * 0.2 + 10 * 0.1) ∧
      (0 : Rat) ≤ a.overall_score ∧ a.overall_score ≤ 100 ∧
      (10 : Rat) ≤ a.overall_score ∧ a.overall_score ≤ 91) ∧
    (∃ (c : DCand) (j : Job) (a : Analysis),
      analyze_candidate c j = .ok a ∧ a.skill_match_score = 0 ∧
      a.experience_match_score = 30 ∧ a.education_match_score = 0 ∧
      a.overall_score = 10) ∧
    (∃ (c : DCand) (j : Job) (a : Analysis),
      analyze_candidate c j = .ok a ∧ a.skill_match_score = 100 ∧
      a.experience_match_score = 100 ∧ a.education_match_score = 100 ∧
      a.overall_score = 91) := by
  refine ⟨?_, ⟨candMin, jobMin, analysisMin, by decide, rfl, rfl, rfl, rfl⟩,
          ⟨candMax, jobMax, analysisMax, by decide, rfl, rfl, rfl, rfl⟩⟩
  intro c j a h
  unfold analyze_candidate at h
  cases hsk : calculate_skill_match c.skills j.skills_required with
  | error e => rw [hsk] at h; cases h
  | ok sk =>
    rw [hsk] at h
    cases h
    have hskb := calculate_skill_match_bounds c.skills j.skills_required sk hsk
    have hexp := calculate_experience_match_bounds c.experience j.experience_level
    have hedu := calculate_education_match_bounds c.education j.requirements
    refine ⟨rfl, ?_, ?_, ?_, ?_⟩
    · have h10 : ((10 : Int) : Rat) ≤ sk * 0.4 +
          calculate_experience_match c.experience j.experience_level * 0.3 +
          calculate_education_match c.education j.requirements * 0.2 + 10 * 0.1 := by
        push_cast
        nlinarith [hskb.1, hexp.1, hedu.1]
      have h91 : sk * 0.4 +
          calculate_experience_match c.experience j.experience_level * 0.3 +
          calculate_education_match c.education j.requirements * 0.2 + 10 * 0.1 ≤
          ((91 : Int) : Rat) := by
        push_cast
        nlinarith [hskb.2, hexp.2, hedu.2]
      have hb := pyRound2_bounds h10 h91
      have := hb.1
      push_cast at this
      linarith
    · have h10 : ((10 : Int) : Rat) ≤ sk * 0.4 +
          calculate_experience_match c.experience j.experience_level * 0.3 +
          calculate_education_match c.education j.requirements * 0.2 + 10 * 0.1 := by
        push_cast
        nlinarith [hskb.1, hexp.1, hedu.1]
      have h91 : sk * 0.4 +
          calculate_experience_match c.experience j.experience_level * 0.3 +
          calculate_education_match c.education j.requirements * 0.2 + 10 * 0.1 ≤
          ((91 : Int) : Rat) := by
        push_cast
        nlinarith [hskb.2, hexp.2, hedu.2]
      have hb := pyRound2_bounds h10 h91
      have := hb.2
      push_cast at this
      linarith
    · have h10 : ((10 : Int) : Rat) ≤ sk * 0.4 +
          calculate_experience_match c.experience j.experience_level * 0.3 +
          calculate_education_match c.education j.requirements * 0.2 + 10 * 0.1 := by
        push_cast
        nlinarith [hskb.1, hexp.1, hedu.1]
      have h91 : sk * 0.4 +
          calculate_experience_match c.experience j.experience_level * 0.3 +
          calculate_education_match c.education j.requirements * 0.2 + 10 * 0.1 ≤
          ((91 : Int) : Rat) := by
        push_cast
        nlinarith [hskb.2, hexp.2, hedu.2]
      have hb := pyRound2_bounds h10 h91
      have := hb.1
      push_cast at this
      linarith
    · have h10 : ((10 : Int) : Rat) ≤ sk * 0.4 +
          calculate_experience_match c.experience j.experience_level * 0.3 +
          calculate_education_match c.education j.requirements * 0.2 + 10 * 0.1 := by
        push_cast
        nlinarith [hskb.1, hexp.1, hedu.1]
      have h91 : sk * 0.4 +
          calculate_experience_match c.experience j.experience_level * 0.3 +
          calculate_education_match c.education j.requirements * 0.2 + 10 * 0.1 ≤
          ((91 : Int) : Rat) := by
        push_cast
        nlinarith [hskb.2, hexp.2, hedu.2]
      have hb := pyRound2_bounds h10 h91
      have := hb.2
      push_cast at this
      linarith

/-- C1 counterexample: a candidate/job pair with all three sub-scores 100 gets
overall score 91, not 100 as claimed (so the claimed extremes 10-from-0/0/0
and 100-from-100/100/100 are wrong; the `10 * 0.1` term contributes 1). -/
theorem claim_C1_counterexample :
    analyze_candidate candMax jobMax = .ok analysisMax ∧
    analysisMax.skill_match_score = 100 ∧
    analysisMax.experience_match_score = 100 ∧
    analysisMax.education_match_score = 100 ∧
    analysisMax.overall_score = 91 ∧ (91 : Rat) ≠ 100 := by
  refine ⟨by decide, rfl, rfl, rfl, rfl, by norm_num⟩

/-- C1 witness: the amended claim's universal part applied at `candMax` /
`jobMax`. -/
theorem claim_C1_witness :
    analysisMax.overall_score =
      pyRound2 (analysisMax.skill_match_score * 0.4 + analysisMax.experience_match_score * 0.3 +
                analysisMax.education_match_score * 0.2 + 10 * 0.1) ∧
    (0 : Rat) ≤ analysisMax.overall_score ∧ analysisMax.overall_score ≤ 100 ∧
    (10 : Rat) ≤ analysisMax.overall_score ∧ analysisMax.overall_score ≤ 91 :=
  claim_C1.1 candMax jobMax analysisMax (by decide)

/-- C2 (amended): the ScoringEngine extracts year counts with
`FilterAI._extract_years` — the single pattern `(\d+)\s*years?`, first match,
0 when none — and on top of those counts the experience score is 50 when the
job states no requirement, else 100 / 80 / 60 / 30 at the ≥, ≥80%, ≥60%
thresholds; but this extraction rule does NOT agree with §4.1's
`extract_experience` on every input (e.g. on "7+ years" they disagree). -/
theorem claim_C2 :
    (∀ candidate_exp required_exp : String,
      calculate_experience_match candidate_exp required_exp =
        if required_exp == "" then 50
        else if extract_years required_exp ≤ extract_years candidate_exp then 100
        else if (extract_years required_exp : Rat) * 0.8 ≤ (extract_years candidate_exp : Rat) then 80
        else if (extract_years required_exp : Rat) * 0.6 ≤ (extract_years candidate_exp : Rat) then 60
        else 30) ∧
    (∃ t : String, extract_years t ≠ parserYearCount 2026 t) :=
  ⟨fun _ _ => rfl, ⟨"7+ years", by decide⟩⟩

/-- C2 counterexample: on the text "7+ years" the §4.1 extraction rule
(`ResumeParser.extract_experience`) yields "7 years" — a 7-year count — while
the ScoringEngine's `_extract_years` yields 0, because its single pattern
`(\d+)\s*years?` does not tolerate the `+`; so the two extraction functions
do not agree on every input. -/
theorem claim_C2_counterexample :
    extract_years "7+ years" = 0 ∧
    extract_experience 2026 "7+ years" = some "7 years" ∧
    parserYearCount 2026 "7+ years" = 7 ∧
    extract_years "7+ years" ≠ parserYearCount 2026 "7+ years" := by
  refine ⟨by decide, by decide, by decide, by decide⟩

/-- C3 (confirmed): every candidate `filter_candidates` outputs passed all
four criteria conjointly — extracted experience-years at least
`min_experience` (extraction failure meaning 0 years, which passes when the
minimum is 0), all required skills present case-insensitively, the education
level appearing as a case-insensitive substring unless it is "Any", and the
overall score at least the threshold. -/
theorem claim_C3 :
    ∀ (candidates : List DCand) (job : Job) (fc : FilterCriteria) (x : FilteredC),
      x ∈ (filter_candidates candidates job fc).filtered_candidates →
      fc.min_experience ≤ extract_years x.candidate.experience ∧
      check_required_skills x.candidate.skills fc.required_skills = .ok true ∧
      (fc.education_level ≠ "Any" →
        pyIn (pyLower fc.education_level) (pyLower x.candidate.education) = true) ∧
      fc.score_threshold ≤ x.match_score := by
  intro cs j fc x hx
  unfold filter_candidates at hx
  cases hfl : filterLoop fc (rank_candidates cs j) with
  | ok l =>
    rw [hfl] at hx
    exact filterLoop_mem fc _ l hfl x (by simpa using hx)
  | error m =>
    rw [hfl] at hx
    simp at hx

/-- C3 witness: the four criteria hold of the record that
`filter_candidates csW3 jW3 fcW3` actually outputs. -/
theorem claim_C3_witness :
    fcW3.min_experience ≤ extract_years xW3.candidate.experience ∧
    check_required_skills xW3.candidate.skills fcW3.required_skills = .ok true ∧
    (fcW3.education_level ≠ "Any" →
      pyIn (pyLower fcW3.education_level) (pyLower xW3.candidate.education) = true) ∧
    fcW3.score_threshold ≤ xW3.match_score :=
  claim_C3 csW3 jW3 fcW3 xW3 (by decide)

/-- C4 (confirmed): `rank_candidates` output is sorted descending by (stored)
overall score, and stably so: for every score value, the equal-scored entries
appear in exactly the order in which their candidates appear in the input
list (of which `okAnalyses` is the order-preserving successfully-analyzed
part). -/
theorem claim_C4 :
    ∀ (candidates : List DCand) (job : Job),
      (rank_candidates candidates job).Pairwise
        (fun a b => b.analysis.overall_score ≤ a.analysis.overall_score) ∧
      ∀ q : Rat,
        (rank_candidates candidates job).filter
            (fun e => decide (e.analysis.overall_score = q)) =
          (okAnalyses candidates job).filter
            (fun e => decide (e.analysis.overall_score = q)) := by
  intro cs j
  exact ⟨sortDescBy_pairwise _ _, fun q => sortDescBy_filter _ _ q⟩

/-- C5 (confirmed): `_get_ranking_category` maps a score to Excellent iff
s ≥ 80, Good iff 60 ≤ s < 80, Average iff 40 ≤ s < 60 and Below Average iff
s < 40; each boundary belongs to the higher band, as the three boundary
instances show. -/
theorem claim_C5 :
    ∀ s : Rat,
      (get_ranking_category s = "Excellent" ↔ 80 ≤ s) ∧
      (get_ranking_category s = "Good" ↔ 60 ≤ s ∧ s < 80) ∧
      (get_ranking_category s = "Average" ↔ 40 ≤ s ∧ s < 60) ∧
      (get_ranking_category s = "Below Average" ↔ s < 40) ∧
      get_ranking_category 80 = "Excellent" ∧
      get_ranking_category 60 = "Good" ∧
      get_ranking_category 40 = "Average" := by
  intro s
  refine ⟨?_, ?_, ?_, ?_, by decide, by decide, by decide⟩
  · constructor
    · intro h
      unfold get_ranking_category at h
      split_ifs at h with h1 h2 h3
      · exact h1
      · exact absurd h (by decide)
      · exact absurd h (by decide)
      · exact absurd h (by decide)
    · intro h80
      unfold get_ranking_category
      rw [if_pos h80]
  · constructor
    · intro h
      unfold get_ranking_category at h
      split_ifs at h with h1 h2 h3
      · exact absurd h (by decide)
      · exact ⟨h2, lt_of_not_le h1⟩
      · exact absurd h (by decide)
      · exact absurd h (by decide)
    · rintro ⟨h60, h80⟩
      unfold get_ranking_category
      rw [if_neg (not_le.mpr h80), if_pos h60]
  · constructor
    · intro h
      unfold get_ranking_category at h
      split_ifs at h with h1 h2 h3
      · exact absurd h (by decide)
      · exact absurd h (by decide)
      · exact ⟨h3, lt_of_not_le h2⟩
      · exact absurd h (by decide)
    · rintro ⟨h40, h60⟩
      have h80 : s < 80 := lt_of_lt_of_le h60 (by norm_num)
      unfold get_ranking_category
      rw [if_neg (not_le.mpr h80), if_neg (not_le.mpr h60), if_pos h40]
  · constructor
    · intro h
      unfold get_ranking_category at h
      split_ifs at h with h1 h2 h3
      · exact absurd h (by decide)
      · exact absurd h (by decide)
      · exact absurd h (by decide)
      · exact lt_of_not_le h3
    · intro h40
      have h60 : s < 60 := lt_of_lt_of_le h40 (by norm_num)
      have h80 : s < 80 := lt_of_lt_of_le h40 (by norm_num)
      unfold get_ranking_category
      rw [if_neg (not_le.mpr h80), if_neg (not_le.mpr h60), if_neg (not_le.mpr h40)]

/-- C6 (confirmed): for string-valued skills the skill score is the number of
job-required skills present case-insensitively among the candidate's skills,
divided by the number of required skills, times 100 — and exactly the neutral
50 whenever the job's required-skills list is empty, regardless of the
candidate. -/
theorem claim_C6 :
    ∀ (cs rs : List String),
      calculate_skill_match (cs.map SVal.s) rs =
        .ok (if rs.isEmpty then (50 : Rat)
             else (((rs.map pyLower).countP
                      (fun sk => (cs.map pyLower).contains sk) : Rat) /
                   (rs.length : Rat)) * 100) := by
  intro cs rs
  unfold calculate_skill_match
  by_cases h : rs.isEmpty
  · simp [h]
  · simp [h, lowerVals_map_s, List.length_map]

/-- C7 (confirmed): `parse_resume` is total on its text input; absent or
empty text yields exactly the explicit no-content error dict and nothing
else, and any non-empty text yields the populated record whose fields are
the individual best-effort extractors — `Option`/list valued, so an
unextractable field is `none`/`[]`, never an exception (e.g. on "zzz" every
field comes back empty). -/
theorem claim_C7 :
    (∀ currentYear : Int,
      parse_resume currentYear none = .err "No text content found" ∧
      parse_resume currentYear (some "") = .err "No text content found" ∧
      ∀ t : String,
        parse_resume currentYear (some t) =
          if t == "" then .err "No text content found"
          else .ok ⟨extract_name t, extract_email t, extract_phone t,
                    extract_skills t, extract_experience currentYear t,
                    extract_education t, t⟩) ∧
    parse_resume 2026 (some "zzz") =
      .ok ⟨none, none, none, [], none, none, "zzz"⟩ :=
  ⟨fun _ => ⟨rfl, rfl, fun _ => rfl⟩, by decide⟩

/-- C8 (confirmed): a candidate whose scoring raises (here: a non-string
skill entry, caught by `analyze_candidate` and returned as an error dict) is
simply omitted by `rank_candidates`; the ranked list is exactly the one for
the remaining candidates, and the failure never aborts the batch. -/
theorem claim_C8 :
    ∀ (cs1 cs2 : List DCand) (c : DCand) (j : Job) (e : String),
      analyze_candidate c j = .error e →
      rank_candidates (cs1 ++ c :: cs2) j = rank_candidates (cs1 ++ cs2) j := by
  intro cs1 cs2 c j e h
  unfold rank_candidates
  congr 1
  unfold okAnalyses
  rw [List.filterMap_append, List.filterMap_append, List.filterMap_cons]
  simp [h]

/-- C8 witness: dropping the ill-typed candidate `cBad` from the middle of a
batch leaves exactly the ranking of the two well-typed candidates. -/
theorem claim_C8_witness :
    rank_candidates [cGood1, cBad, cGood2] jW8 = rank_candidates [cGood1, cGood2] jW8 :=
  claim_C8 [cGood1] [cGood2] cBad jW8 errW8 (by decide)

/-- C9 (confirmed): storing a candidate and immediately listing candidates
returns the previous contents with exactly that record appended last,
unchanged — the store round-trip — and the operation reports success. -/
theorem claim_C9 :
    ∀ (α : Type) (st : Option (StoreDoc α)) (c : CandRec α),
      (store_candidate c st).1.success = true ∧
      get_candidates (store_candidate c st).2 = get_candidates st ++ [c] := by
  intro α st c
  refine ⟨rfl, ?_⟩
  cases st with
  | none => rfl
  | some d =>
    cases d with
    | mk ck =>
      cases ck with
      | none => rfl
      | some l => rfl

/-- C10 (confirmed): updating the status of an id absent from the store
reports success (the write being modelled as succeeding) — there is no
not-found signal — and leaves every stored candidate record unchanged. -/
theorem claim_C10 :
    ∀ (α : Type) (st : Option (StoreDoc α)) (cid status : String),
      (∀ c ∈ get_candidates st, c.id? ≠ some cid) →
      (update_candidate_status cid status st).1.success = true ∧
      get_candidates (update_candidate_status cid status st).2 = get_candidates st := by
  intro α st cid status h
  refine ⟨rfl, ?_⟩
  calc get_candidates (update_candidate_status cid status st).2
      = setStatusFirst cid status (get_candidates st) := rfl
    _ = get_candidates st := setStatusFirst_eq_of_not_found cid status _ h

/-- C10 witness: a store holding only the id "a", updated at the absent id
"b". -/
theorem claim_C10_witness :
    (update_candidate_status "b" "approved" stW10).1.success = true ∧
    get_candidates (update_candidate_status "b" "approved" stW10).2 = get_candidates stW10 :=
  claim_C10 Nat stW10 "b" "approved" (by decide)
